import Mathlib

/-!
A shallow embedding of the `paxos-rs` multi-decree Paxos engine
(`src/main.rs`) and proofs about its wire codec and the proposer,
acceptor and learner state machines.

Conventions of the embedding:
* Rust `i32` values are modelled as `Int`; overflow is irrelevant to the
  claims checked here except in the wire codec, where the two's-complement
  representation is modelled explicitly (`% 2^32`).
* A Rust `HashMap<i32, V>` is modelled as an association list
  `List (Int × V)` with unique keys maintained by `hmInsert`.
* A handler that can `panic!` (or index out of bounds) is modelled as a
  function into `Option`; `none` is the panic outcome.
* Byte buffers are `List Nat` (each entry `< 256` when produced by
  `paxos_encode`).
-/

set_option autoImplicit false

namespace PaxosRs

/-- The compile-time quorum threshold, `const QUORUM: i32 = 2` in the source. -/
def QUORUM : Int := 2

/-- A decoded wire message, a list of signed 32-bit integers. -/
abbrev Msg := List Int

/-- The four-byte big-endian two's-complement encoding of an `i32`,
modelling Rust's `x.to_be_bytes()`; the embedding takes the value
modulo `2^32` first, which is exact for inputs in `i32` range. -/
def i32ToBeBytes (x : Int) : List Nat :=
  [(x % 4294967296).toNat / 16777216,
   (x % 4294967296).toNat / 65536 % 256,
   (x % 4294967296).toNat / 256 % 256,
   (x % 4294967296).toNat % 256]

/-- Rust's `i32::from_be_bytes` on four bytes: big-endian reassembly,
then two's-complement reinterpretation of the high bit. -/
def i32FromBeBytes (b0 b1 b2 b3 : Nat) : Int :=
  if b0 * 16777216 + b1 * 65536 + b2 * 256 + b3 < 2147483648 then
    ((b0 * 16777216 + b1 * 65536 + b2 * 256 + b3 : Nat) : Int)
  else ((b0 * 16777216 + b1 * 65536 + b2 * 256 + b3 : Nat) : Int) - 4294967296

/-- `paxos_encode` from the source: map every integer to its big-endian
four-byte representation and flatten. -/
def paxos_encode (lon : List Int) : List Nat :=
  (lon.map i32ToBeBytes).flatten

/-- The byte-consuming loop of `paxos_decode`: every complete group of
four bytes becomes one integer; a trailing partial group is dropped
(the source only pushes when `i % 4 == 3`). -/
def decodeAux : List Nat → List Int
  | b0 :: b1 :: b2 :: b3 :: rest => i32FromBeBytes b0 b1 b2 b3 :: decodeAux rest
  | _ => []

/-- `paxos_decode(byte_array, size)` from the source: read the first
`size` bytes of the buffer, producing one integer per complete group of
four bytes. (The source indexes `byte_array[i]` for `i < size`; in every
call `size` is the number of bytes received into the buffer, so the
indexing stays in bounds, which `List.take` models.) -/
def paxos_decode (byte_array : List Nat) (size : Nat) : List Int :=
  decodeAux (byte_array.take size)

/-! ### Association-list model of `HashMap<i32, V>` -/

/-- Lookup in the association-list model of a `HashMap`. -/
def hmGet {α : Type} : List (Int × α) → Int → Option α
  | [], _ => none
  | (k', v) :: rest, k => if k' = k then some v else hmGet rest k

/-- Insert-or-replace in the association-list model of a `HashMap`. -/
def hmInsert {α : Type} : List (Int × α) → Int → α → List (Int × α)
  | [], k, v => [(k, v)]
  | (k', v') :: rest, k, v =>
    if k' = k then (k, v) :: rest else (k', v') :: hmInsert rest k v

/-- Key removal in the association-list model of a `HashMap`. -/
def hmRemove {α : Type} : List (Int × α) → Int → List (Int × α)
  | [], _ => []
  | (k', v') :: rest, k => if k' = k then rest else (k', v') :: hmRemove rest k

/-! ### Role state machines -/

/-- The multicast groups a message can be addressed to. -/
inductive Group
  | proposers
  | acceptors
  | learners
deriving DecidableEq

/-- Per-instance proposer state: the `HashMap::from([("c-rnd", 0), ...])`
record of the source. -/
structure PIState where
  crnd : Int
  cval : Int
  q : Int
  k : Int
  kval : Int
deriving DecidableEq

/-- The proposer's whole mutable state: the per-instance map and the
local instance counter. -/
structure PState where
  states : List (Int × PIState)
  instance_counter : Int
deriving DecidableEq

/-- One iteration of the proposer's receive loop on a decoded message.
`none` models a panic (unknown phase, unknown instance, or an
out-of-bounds index into the message). The returned list holds the
datagrams sent, tagged with their destination group. -/
def proposer_step (p : PState) (inmsg : Msg) : Option (PState × List (Group × Msg)) :=
  match inmsg.get? 0, inmsg.get? 1 with
  | some inst, some phase =>
    if phase = 0 then
      -- client submit: allocate the next instance and send a 1A at round 0
      match inmsg.get? 2 with
      | some value =>
        some ({ states := hmInsert p.states p.instance_counter
                  { crnd := 0, cval := value, q := 0, k := -1, kval := -1 },
                instance_counter := p.instance_counter + 1 },
              [(Group.acceptors, [p.instance_counter, 1, 0])])
      | none => none
    else if phase = 1 then
      -- 1B from an acceptor
      match hmGet p.states inst, inmsg.get? 2 with
      | some st, some m2 =>
        if st.crnd ≥ m2 then
          match inmsg.get? 3 with
          | some m3 =>
            if m3 > st.k then
              match inmsg.get? 4 with
              | some m4 =>
                let st' : PIState := { st with q := st.q + 1, k := m3, kval := m4 }
                some ({ p with states := hmInsert p.states inst st' },
                      if st'.q ≥ QUORUM then [(Group.acceptors, [inst, 2, st'.crnd, m4])]
                      else [])
              | none => none
            else
              let st' : PIState := { st with q := st.q + 1 }
              some ({ p with states := hmInsert p.states inst st' },
                    if st'.q ≥ QUORUM then [(Group.acceptors, [inst, 2, st'.crnd, st.cval])]
                    else [])
          | none => none
        else some (p, [])
      | none, _ => none
      | some _, none => none
    else if phase = 3 then
      -- restart from the timer task: adopt the new round and resend 1A
      match hmGet p.states inst, inmsg.get? 2 with
      | some st, some m2 =>
        some ({ p with states := hmInsert p.states inst { st with crnd := m2 } },
              [(Group.acceptors, [inst, 1, m2])])
      | _, _ => none
    else none
  | _, _ => none

/-- Per-instance acceptor state. -/
structure AIState where
  rnd : Int
  vrnd : Int
  vval : Int
deriving DecidableEq

/-- The fresh-instance initialiser `{rnd: -1, v-rnd: -1, v-val: -1}`. -/
def initAState : AIState := { rnd := -1, vrnd := -1, vval := -1 }

/-- One iteration of the acceptor's receive loop. The phase-1 branch
creates the instance state lazily (`entry().or_insert`); the phase-2
branch panics (`none`) on an unknown instance. -/
def acceptor_step (states : List (Int × AIState)) (inmsg : Msg) :
    Option (List (Int × AIState) × List (Group × Msg)) :=
  match inmsg.get? 0, inmsg.get? 1 with
  | some inst, some phase =>
    if phase = 1 then
      match inmsg.get? 2 with
      | some m2 =>
        let st0 := (hmGet states inst).getD initAState
        if m2 ≥ st0.rnd then
          let st' : AIState := { st0 with rnd := m2 }
          some (hmInsert states inst st',
                [(Group.proposers, [inst, 1, st'.rnd, st'.vrnd, st'.vval])])
        else some (hmInsert states inst st0, [])
      | none => none
    else if phase = 2 then
      match hmGet states inst, inmsg.get? 2 with
      | some st0, some m2 =>
        if m2 ≥ st0.rnd then
          match inmsg.get? 3 with
          | some m3 =>
            some (hmInsert states inst { st0 with vrnd := m2, vval := m3 },
                  [(Group.learners, [inst, 2, m2, m3])])
          | none => none
        else some (states, [])
      | _, _ => none
    else none
  | _, _ => none

/-- The learner's whole mutable state: `itl`, the per-instance map of
`(v-rnd, v-val, quorum)` triples, and the values printed so far.
`output` records each emission as the pair `(instance, value)`: an
emission happens at instance `itl` and prints the stored value. -/
structure LState where
  itl : Int
  states : List (Int × (Int × Int × Int))
  output : List (Int × Int)
deriving DecidableEq

/-- The learner's `while q >= QUORUM` emit loop: print the stored value
of `itl`, delete the entry, advance `itl`, and reload `q` from the new
entry. The source reloads `q` from `t.1` — the second tuple component,
which is the stored value, not the quorum counter. Indexing
`states[&itl]` with no entry present panics (`none`). -/
def emitLoop (l : LState) (q : Int) : Option LState :=
  if QUORUM ≤ q then
    match hget : hmGet l.states l.itl with
    | none => none
    | some t =>
      let states' := hmRemove l.states l.itl
      let q' : Int :=
        match hmGet states' (l.itl + 1) with
        | some t2 => t2.2.1
        | none => 0
      emitLoop { itl := l.itl + 1, states := states',
                 output := l.output ++ [(l.itl, t.2.1)] } q'
  else some l
termination_by l.states.length
decreasing_by
  revert hget
  generalize l.itl = key
  generalize l.states = m
  induction m with
  | nil => intro hget; simp [hmGet] at hget
  | cons p rest ih =>
    intro hget
    by_cases hpk : p.1 = key
    · simp [hmRemove, hpk]
    · simp only [hmGet, if_neg hpk] at hget
      simp only [hmRemove, if_neg hpk, List.length_cons]
      exact Nat.succ_lt_succ (ih hget)

/-- After updating the entry for `inst`, the learner enters the emit
loop only when `inst` equals `itl`. -/
def learnerEmit (l : LState) (inst : Int) (q : Int) : Option LState :=
  if inst = l.itl then emitLoop l q else some l

/-- One iteration of the learner's receive loop on a decoded message.
The triples are `(v-rnd, v-val, quorum)`; the supersede branch of the
source writes `inmsg[2]` (the round) into both the round and the value
slots. -/
def learner_step (l : LState) (inmsg : Msg) : Option LState :=
  match inmsg.get? 0, inmsg.get? 1 with
  | some inst, some phase =>
    if phase = 2 then
      if inst < l.itl then some l
      else
        match hmGet l.states inst, inmsg.get? 2 with
        | some t, some m2 =>
          if m2 = t.1 then
            learnerEmit { l with states := hmInsert l.states inst (t.1, t.2.1, t.2.2 + 1) }
              inst (t.2.2 + 1)
          else if m2 > t.1 then
            learnerEmit { l with states := hmInsert l.states inst (m2, m2, 1) } inst 1
          else
            learnerEmit l inst t.2.2
        | none, some m2 =>
          match inmsg.get? 3 with
          | some m3 =>
            learnerEmit { l with states := hmInsert l.states inst (m2, m3, 1) } inst 1
          | none => none
        | some _, none => none
        | none, none => none
    else none
  | _, _ => none

/-! ### Sequential runs of a single role -/

/-- Run a proposer over a list of delivered messages, accumulating the
datagrams it sends; `none` if any step panics. -/
def proposer_run : PState → List Msg → Option (PState × List (Group × Msg))
  | p, [] => some (p, [])
  | p, m :: ms =>
    (proposer_step p m).bind fun r =>
      (proposer_run r.1 ms).map fun r2 => (r2.1, r.2 ++ r2.2)

/-- Run an acceptor over a list of delivered messages. -/
def acceptor_run : List (Int × AIState) → List Msg → Option (List (Int × AIState))
  | st, [] => some st
  | st, m :: ms => (acceptor_step st m).bind fun r => acceptor_run r.1 ms

/-- Run a learner over a list of delivered messages. -/
def learner_run : LState → List Msg → Option LState
  | l, [] => some l
  | l, m :: ms => (learner_step l m).bind fun l' => learner_run l' ms

/-- The invariant claimed for an acceptor: every stored instance
satisfies `v-rnd ≤ rnd`. -/
def acceptorInv (s : List (Int × AIState)) : Bool :=
  s.all fun p => p.2.vrnd ≤ p.2.rnd

/-! ### A whole-system semantics

A global state holds two proposers, two acceptors and two learners
(QUORUM = 2, so two acceptors form a quorum) together with the multiset
of datagrams ever sent. Delivering a message never consumes it, so the
semantics contains every loss, duplication and reordering the UDP
transport allows; the timer task is not modelled (omitting step kinds
only removes executions). -/

structure Sys where
  prop1 : PState
  prop2 : PState
  acc1 : List (Int × AIState)
  acc2 : List (Int × AIState)
  lrn1 : LState
  lrn2 : LState
  net : List (Group × Msg)

/-- The initial system: empty role states, no messages sent. -/
def initSys : Sys :=
  { prop1 := { states := [], instance_counter := 0 },
    prop2 := { states := [], instance_counter := 0 },
    acc1 := [], acc2 := [],
    lrn1 := { itl := 0, states := [], output := [] },
    lrn2 := { itl := 0, states := [], output := [] },
    net := [] }

/-- One system step: a client submits a value, or some process handles
a message from its group (any message ever sent can be delivered, any
number of times). -/
inductive Step : Sys → Sys → Prop where
  | client (s : Sys) (v : Int) :
      Step s { s with net := s.net ++ [(Group.proposers, [-1, 0, v])] }
  | prop1 (s : Sys) (m : Msg) (p' : PState) (outs : List (Group × Msg)) :
      (Group.proposers, m) ∈ s.net → proposer_step s.prop1 m = some (p', outs) →
      Step s { s with prop1 := p', net := s.net ++ outs }
  | prop2 (s : Sys) (m : Msg) (p' : PState) (outs : List (Group × Msg)) :
      (Group.proposers, m) ∈ s.net → proposer_step s.prop2 m = some (p', outs) →
      Step s { s with prop2 := p', net := s.net ++ outs }
  | acc1 (s : Sys) (m : Msg) (a' : List (Int × AIState)) (outs : List (Group × Msg)) :
      (Group.acceptors, m) ∈ s.net → acceptor_step s.acc1 m = some (a', outs) →
      Step s { s with acc1 := a', net := s.net ++ outs }
  | acc2 (s : Sys) (m : Msg) (a' : List (Int × AIState)) (outs : List (Group × Msg)) :
      (Group.acceptors, m) ∈ s.net → acceptor_step s.acc2 m = some (a', outs) →
      Step s { s with acc2 := a', net := s.net ++ outs }
  | lrn1 (s : Sys) (m : Msg) (l' : LState) :
      (Group.learners, m) ∈ s.net → learner_step s.lrn1 m = some l' →
      Step s { s with lrn1 := l' }
  | lrn2 (s : Sys) (m : Msg) (l' : LState) :
      (Group.learners, m) ∈ s.net → learner_step s.lrn2 m = some l' →
      Step s { s with lrn2 := l' }

/-- Reachability of a system state from another by any number of steps. -/
def Reachable : Sys → Sys → Prop := Relation.ReflTransGen Step

/-! ### A concrete execution in which two learners learn different values

Two proposers both allocate instance 0 at round 0 (instance numbers are
proposer-local and every submit starts at round 0). Both gather a
promise quorum (the acceptor's 1A test is `c-rnd ≥ rnd`, so the second
prepare at the same round is promised too); acceptor 1 accepts value 10
and acceptor 2 accepts value 20, both at round 0 (the 2A test is also
`≥`). Learner 1 hears acceptor 1's 2B twice (UDP duplication), learner
2 hears acceptor 2's 2B twice; both see quorum 2 for round 0 and emit
different values for instance 0. -/

def c1s1 : Sys := { initSys with net := initSys.net ++ [(Group.proposers, [-1, 0, 10])] }

def c1s2 : Sys := { c1s1 with net := c1s1.net ++ [(Group.proposers, [-1, 0, 20])] }

def c1s3 : Sys :=
  { c1s2 with
    prop1 := { states := [(0, { crnd := 0, cval := 10, q := 0, k := -1, kval := -1 })],
               instance_counter := 1 },
    net := c1s2.net ++ [(Group.acceptors, [0, 1, 0])] }

def c1s4 : Sys :=
  { c1s3 with
    prop2 := { states := [(0, { crnd := 0, cval := 20, q := 0, k := -1, kval := -1 })],
               instance_counter := 1 },
    net := c1s3.net ++ [(Group.acceptors, [0, 1, 0])] }

def c1s5 : Sys :=
  { c1s4 with
    acc1 := [(0, { rnd := 0, vrnd := -1, vval := -1 })],
    net := c1s4.net ++ [(Group.proposers, [0, 1, 0, -1, -1])] }

def c1s6 : Sys :=
  { c1s5 with
    acc2 := [(0, { rnd := 0, vrnd := -1, vval := -1 })],
    net := c1s5.net ++ [(Group.proposers, [0, 1, 0, -1, -1])] }

def c1s7 : Sys :=
  { c1s6 with
    prop1 := { states := [(0, { crnd := 0, cval := 10, q := 1, k := -1, kval := -1 })],
               instance_counter := 1 },
    net := c1s6.net ++ [] }

def c1s8 : Sys :=
  { c1s7 with
    prop1 := { states := [(0, { crnd := 0, cval := 10, q := 2, k := -1, kval := -1 })],
               instance_counter := 1 },
    net := c1s7.net ++ [(Group.acceptors, [0, 2, 0, 10])] }

def c1s9 : Sys :=
  { c1s8 with
    prop2 := { states := [(0, { crnd := 0, cval := 20, q := 1, k := -1, kval := -1 })],
               instance_counter := 1 },
    net := c1s8.net ++ [] }

def c1s10 : Sys :=
  { c1s9 with
    prop2 := { states := [(0, { crnd := 0, cval := 20, q := 2, k := -1, kval := -1 })],
               instance_counter := 1 },
    net := c1s9.net ++ [(Group.acceptors, [0, 2, 0, 20])] }

def c1s11 : Sys :=
  { c1s10 with
    acc1 := [(0, { rnd := 0, vrnd := 0, vval := 10 })],
    net := c1s10.net ++ [(Group.learners, [0, 2, 0, 10])] }

def c1s12 : Sys :=
  { c1s11 with
    acc2 := [(0, { rnd := 0, vrnd := 0, vval := 20 })],
    net := c1s11.net ++ [(Group.learners, [0, 2, 0, 20])] }

def c1s13 : Sys :=
  { c1s12 with lrn1 := { itl := 0, states := [(0, (0, 10, 1))], output := [] } }

def c1s14 : Sys :=
  { c1s13 with lrn1 := { itl := 1, states := [], output := [(0, 10)] } }

def c1s15 : Sys :=
  { c1s14 with lrn2 := { itl := 0, states := [(0, (0, 20, 1))], output := [] } }

def c1s16 : Sys :=
  { c1s15 with lrn2 := { itl := 1, states := [], output := [(0, 20)] } }

/-! ### Basic lemmas about the `HashMap` model -/

theorem hmGet_insert_self {α : Type} (m : List (Int × α)) (k : Int) (v : α) :
    hmGet (hmInsert m k v) k = some v := by
  induction m with
  | nil => simp [hmInsert, hmGet]
  | cons p rest ih =>
    by_cases h : p.1 = k
    · simp [hmInsert, hmGet, h]
    · simp [hmInsert, hmGet, h, ih]

theorem hmGet_insert_ne {α : Type} (m : List (Int × α)) (k j : Int) (v : α)
    (h : j ≠ k) : hmGet (hmInsert m k v) j = hmGet m j := by
  have hkj : ¬(k = j) := fun hh => h hh.symm
  induction m with
  | nil => simp [hmInsert, hmGet, hkj]
  | cons p rest ih =>
    rcases p with ⟨pk, pv⟩
    by_cases hpk : pk = k
    · subst hpk
      simp [hmInsert, hmGet, hkj]
    · simp [hmInsert, hmGet, hpk, ih]

/-! ### Evaluation lemmas for the learner's emit loop -/

theorem emitLoop_exit (l : LState) (q : Int) (h : ¬QUORUM ≤ q) :
    emitLoop l q = some l := by
  rw [emitLoop.eq_def]
  simp [h]

theorem emitLoop_go (l : LState) (q : Int) (t : Int × Int × Int) (h : QUORUM ≤ q)
    (hg : hmGet l.states l.itl = some t) :
    emitLoop l q =
      emitLoop { itl := l.itl + 1, states := hmRemove l.states l.itl,
                 output := l.output ++ [(l.itl, t.2.1)] }
        (match hmGet (hmRemove l.states l.itl) (l.itl + 1) with
         | some t2 => t2.2.1
         | none => 0) := by
  rw [emitLoop.eq_def, if_pos h]
  split
  · rename_i heq
    rw [hg] at heq
    exact absurd heq (by simp)
  · rename_i t' heq
    rw [hg] at heq
    rw [Option.some.inj heq]

/-! ### The wire codec round-trip (C9) -/

theorem i32_roundtrip (x : Int) (h1 : -2147483648 ≤ x) (h2 : x < 2147483648) :
    i32FromBeBytes ((x % 4294967296).toNat / 16777216)
      ((x % 4294967296).toNat / 65536 % 256)
      ((x % 4294967296).toNat / 256 % 256)
      ((x % 4294967296).toNat % 256) = x := by
  unfold i32FromBeBytes
  have hmod : (0 : Int) ≤ x % 4294967296 := Int.emod_nonneg x (by norm_num)
  have hcast : ((x % 4294967296).toNat : Int) = x % 4294967296 :=
    Int.toNat_of_nonneg hmod
  split <;> omega

theorem decodeAux_encode (xs : List Int)
    (h : ∀ x ∈ xs, -2147483648 ≤ x ∧ x < 2147483648) :
    decodeAux (paxos_encode xs) = xs := by
  induction xs with
  | nil => rfl
  | cons x rest ih =>
    have hx := h x (List.mem_cons_self x rest)
    have hrest : ∀ y ∈ rest, -2147483648 ≤ y ∧ y < 2147483648 :=
      fun y hy => h y (List.mem_cons_of_mem x hy)
    simp only [paxos_encode, List.map_cons, List.flatten_cons, i32ToBeBytes,
      List.cons_append, List.nil_append, decodeAux]
    rw [i32_roundtrip x hx.1 hx.2]
    have hr := ih hrest
    simp only [paxos_encode] at hr
    exact congrArg (List.cons x) hr

theorem paxos_encode_length (xs : List Int) :
    (paxos_encode xs).length = 4 * xs.length := by
  induction xs with
  | nil => rfl
  | cons x rest ih =>
    simp only [paxos_encode, List.map_cons, List.flatten_cons, List.length_append,
      List.length_cons, List.length_nil, i32ToBeBytes] at *
    omega

/-- C9: For every finite sequence `xs` of signed 32-bit integers,
decoding the encoding of `xs` with size argument `4 * |xs|` yields `xs`
again: `decode(encode(xs), 4 * |xs|) = xs`. -/
theorem paxos_codec_roundtrip (xs : List Int)
    (h : ∀ x ∈ xs, -2147483648 ≤ x ∧ x < 2147483648) :
    paxos_decode (paxos_encode xs) (4 * xs.length) = xs := by
  unfold paxos_decode
  rw [← paxos_encode_length xs, List.take_length]
  exact decodeAux_encode xs h

/-- Witness for C9 at the concrete sequence `[5, -7]`. -/
theorem paxos_codec_roundtrip_witness :
    paxos_decode (paxos_encode [5, -7]) (4 * ([5, -7] : List Int).length) = [5, -7] :=
  paxos_codec_roundtrip [5, -7] (by decide)

/-! ### Short datagrams abort every role (C10) -/

theorem decodeAux_short (bs : List Nat) (h : bs.length < 4) : decodeAux bs = [] := by
  match bs with
  | [] => rfl
  | [_] => rfl
  | [_, _] => rfl
  | [_, _, _] => rfl
  | _ :: _ :: _ :: _ :: _ => simp at h; omega

theorem decodeAux_length_le_one (bs : List Nat) (h : bs.length ≤ 7) :
    (decodeAux bs).length ≤ 1 := by
  match bs with
  | [] => simp [decodeAux]
  | [_] => simp [decodeAux]
  | [_, _] => simp [decodeAux]
  | [_, _, _] => simp [decodeAux]
  | a :: b :: c :: d :: rest =>
    have hr : rest.length < 4 := by simp at h; omega
    simp [decodeAux, decodeAux_short rest hr]

theorem proposer_step_nil_or_single (p : PState) (m : Msg) (h : m.length ≤ 1) :
    proposer_step p m = none := by
  match m with
  | [] => rfl
  | [_] => rfl
  | _ :: _ :: _ => simp at h

theorem acceptor_step_nil_or_single (a : List (Int × AIState)) (m : Msg)
    (h : m.length ≤ 1) : acceptor_step a m = none := by
  match m with
  | [] => rfl
  | [_] => rfl
  | _ :: _ :: _ => simp at h

theorem learner_step_nil_or_single (l : LState) (m : Msg) (h : m.length ≤ 1) :
    learner_step l m = none := by
  match m with
  | [] => rfl
  | [_] => rfl
  | _ :: _ :: _ => simp at h

/-- C10: a datagram of fewer than 8 bytes decodes to fewer than 2
integers, so the unchecked access of the instance/phase fields is out of
bounds and every role's handler aborts (`none` models the panic). -/
theorem short_datagram_aborts (bytes : List Nat) (n : Nat) (p : PState)
    (a : List (Int × AIState)) (l : LState) (h : n < 8) :
    (paxos_decode bytes n).length < 2 ∧
    proposer_step p (paxos_decode bytes n) = none ∧
    acceptor_step a (paxos_decode bytes n) = none ∧
    learner_step l (paxos_decode bytes n) = none := by
  have htake : (bytes.take n).length ≤ 7 := by
    have := List.length_take_le n bytes
    omega
  have hlen : (paxos_decode bytes n).length ≤ 1 := by
    unfold paxos_decode
    exact decodeAux_length_le_one _ htake
  exact ⟨by omega,
    proposer_step_nil_or_single p _ hlen,
    acceptor_step_nil_or_single a _ hlen,
    learner_step_nil_or_single l _ hlen⟩

/-- Witness for C10: a 5-byte datagram decodes to a single integer and
every handler aborts on it. -/
theorem short_datagram_aborts_witness :
    (paxos_decode [0, 0, 0, 1, 0] 5).length < 2 ∧
    proposer_step { states := [], instance_counter := 0 } (paxos_decode [0, 0, 0, 1, 0] 5) = none ∧
    acceptor_step [] (paxos_decode [0, 0, 0, 1, 0] 5) = none ∧
    learner_step { itl := 0, states := [], output := [] } (paxos_decode [0, 0, 0, 1, 0] 5) = none :=
  short_datagram_aborts [0, 0, 0, 1, 0] 5 _ [] _ (by decide)

/-! ### Acceptor invariants (C2) -/

/-- Counterexample for C2: after a 1A at round 0 and a 2A at round 1,
the acceptor stores `rnd = 0` but `v-rnd = 1`, so `v-rnd ≤ rnd` fails.
(The 2A branch sets `v-rnd` to the incoming `c-rnd` without raising
`rnd`.) -/
theorem acceptor_vrnd_gt_rnd_cex :
    acceptor_run [] [[0, 1, 0], [0, 2, 1, 42]] =
      some [(0, { rnd := 0, vrnd := 1, vval := 42 })] ∧
    acceptorInv [(0, { rnd := 0, vrnd := 1, vval := 42 })] = false := by decide

theorem acceptor_step_rnd_mono (st : List (Int × AIState)) (m : Msg)
    (st' : List (Int × AIState)) (outs : List (Group × Msg))
    (h : acceptor_step st m = some (st', outs)) (i : Int) (s : AIState)
    (hs : hmGet st i = some s) :
    ∃ s', hmGet st' i = some s' ∧ s.rnd ≤ s'.rnd := by
  unfold acceptor_step at h
  cases h0 : m.get? 0 with
  | none => rw [h0] at h; exact absurd h (by simp)
  | some inst =>
  cases h1 : m.get? 1 with
  | none => rw [h0, h1] at h; exact absurd h (by simp)
  | some phase =>
  rw [h0, h1] at h
  simp only at h
  by_cases hph1 : phase = 1
  · rw [if_pos hph1] at h
    cases h2 : m.get? 2 with
    | none => rw [h2] at h; exact absurd h (by simp)
    | some m2 =>
    rw [h2] at h
    simp only at h
    by_cases hi : i = inst
    · subst hi
      have hst0 : (hmGet st i).getD initAState = s := by rw [hs]; rfl
      rw [hst0] at h
      by_cases hge : m2 ≥ s.rnd
      · rw [if_pos hge] at h
        simp only [Option.some.injEq, Prod.mk.injEq] at h
        refine ⟨{ s with rnd := m2 }, ?_, hge⟩
        rw [← h.1]
        exact hmGet_insert_self st i _
      · rw [if_neg hge] at h
        simp only [Option.some.injEq, Prod.mk.injEq] at h
        refine ⟨s, ?_, le_refl _⟩
        rw [← h.1]
        exact hmGet_insert_self st i s
    · by_cases hge : m2 ≥ ((hmGet st inst).getD initAState).rnd
      · rw [if_pos hge] at h
        simp only [Option.some.injEq, Prod.mk.injEq] at h
        refine ⟨s, ?_, le_refl _⟩
        rw [← h.1, hmGet_insert_ne st inst i _ hi]
        exact hs
      · rw [if_neg hge] at h
        simp only [Option.some.injEq, Prod.mk.injEq] at h
        refine ⟨s, ?_, le_refl _⟩
        rw [← h.1, hmGet_insert_ne st inst i _ hi]
        exact hs
  · rw [if_neg hph1] at h
    by_cases hph2 : phase = 2
    · rw [if_pos hph2] at h
      cases hg : hmGet st inst with
      | none => rw [hg] at h; exact absurd h (by cases m.get? 2 <;> simp)
      | some st0 =>
      cases h2 : m.get? 2 with
      | none => rw [hg, h2] at h; exact absurd h (by simp)
      | some m2 =>
      rw [hg, h2] at h
      simp only at h
      by_cases hge : m2 ≥ st0.rnd
      · rw [if_pos hge] at h
        cases h3 : m.get? 3 with
        | none => rw [h3] at h; exact absurd h (by simp)
        | some m3 =>
        rw [h3] at h
        simp only [Option.some.injEq, Prod.mk.injEq] at h
        by_cases hi : i = inst
        · subst hi
          have hseq : st0 = s := by rw [hg] at hs; exact Option.some.inj hs
          subst hseq
          refine ⟨{ st0 with vrnd := m2, vval := m3 }, ?_, le_refl _⟩
          rw [← h.1]
          exact hmGet_insert_self st i _
        · refine ⟨s, ?_, le_refl _⟩
          rw [← h.1, hmGet_insert_ne st inst i _ hi]
          exact hs
      · rw [if_neg hge] at h
        simp only [Option.some.injEq, Prod.mk.injEq] at h
        exact ⟨s, by rw [← h.1]; exact hs, le_refl _⟩
    · rw [if_neg hph2] at h
      exact absurd h (by simp)

/-- C2 (amended): at every acceptor, over any fully handled message
sequence, the stored `rnd` of every instance is non-decreasing. (The
second half of the original claim, `v-rnd ≤ rnd`, is refuted by
`acceptor_vrnd_gt_rnd_cex`.) -/
theorem acceptor_rnd_monotone (msgs : List Msg) (st st' : List (Int × AIState))
    (h : acceptor_run st msgs = some st') (i : Int) (s : AIState)
    (hs : hmGet st i = some s) :
    ∃ s', hmGet st' i = some s' ∧ s.rnd ≤ s'.rnd := by
  induction msgs generalizing st s with
  | nil =>
    simp only [acceptor_run, Option.some.injEq] at h
    exact ⟨s, by rw [← h]; exact hs, le_refl _⟩
  | cons m ms ih =>
    simp only [acceptor_run] at h
    cases hstep : acceptor_step st m with
    | none => rw [hstep] at h; exact absurd h (by simp)
    | some r =>
    rw [hstep] at h
    simp only [Option.bind] at h
    obtain ⟨s1, hs1, hle1⟩ := acceptor_step_rnd_mono st m r.1 r.2 hstep i s hs
    obtain ⟨s2, hs2, hle2⟩ := ih r.1 h s1 hs1
    exact ⟨s2, hs2, le_trans hle1 hle2⟩

/-- Witness for C2 (amended): a concrete run where `rnd` rises from 1
to 3. -/
theorem acceptor_rnd_monotone_witness :
    ∃ s', hmGet [(0, ({ rnd := 3, vrnd := 0, vval := 5 } : AIState))] 0 = some s' ∧
      ({ rnd := 1, vrnd := 0, vval := 5 } : AIState).rnd ≤ s'.rnd :=
  acceptor_rnd_monotone [[0, 1, 3]] [(0, { rnd := 1, vrnd := 0, vval := 5 })]
    [(0, { rnd := 3, vrnd := 0, vval := 5 })] (by decide) 0
    { rnd := 1, vrnd := 0, vval := 5 } (by decide)

/-! ### Proposer: restart handling (C5) -/

/-- C5 (amended): handling a restart `[instance, 3, new-round]` for an
instance with existing state sets that instance's `c-rnd` to the new
round and sends a 1A `[instance, 1, new-round]` to the acceptors group;
the promise counter `q` is left unchanged (the record update keeps
`st.q`). -/
theorem proposer_restart_no_q_reset (p : PState) (i r : Int) (st : PIState)
    (h : hmGet p.states i = some st) :
    proposer_step p [i, 3, r] =
      some ({ p with states := hmInsert p.states i { st with crnd := r } },
            [(Group.acceptors, [i, 1, r])]) := by
  unfold proposer_step
  simp only [List.get?, h]
  norm_num

/-- Witness for C5 (amended) at a concrete state with `q = 1`. -/
theorem proposer_restart_no_q_reset_witness :
    proposer_step
        { states := [(0, { crnd := 0, cval := 10, q := 1, k := -1, kval := -1 })],
          instance_counter := 1 } [0, 3, 7] =
      some ({ states := [(0, { crnd := 7, cval := 10, q := 1, k := -1, kval := -1 })],
              instance_counter := 1 },
            [(Group.acceptors, [0, 1, 7])]) := by
  have h := proposer_restart_no_q_reset
    { states := [(0, { crnd := 0, cval := 10, q := 1, k := -1, kval := -1 })],
      instance_counter := 1 } 0 7
    { crnd := 0, cval := 10, q := 1, k := -1, kval := -1 } (by decide)
  simpa using h

/-- Counterexample for C5 as stated: after a submit, one 1B (so `q = 1`)
and then a restart with round 7, the stored `q` is still 1, not 0. -/
theorem proposer_restart_q_unchanged_cex :
    proposer_run { states := [], instance_counter := 0 }
        [[-1, 0, 10], [0, 1, 0, -1, -1], [0, 3, 7]] =
      some ({ states := [(0, { crnd := 7, cval := 10, q := 1, k := -1, kval := -1 })],
              instance_counter := 1 },
            [(Group.acceptors, [0, 1, 0]), (Group.acceptors, [0, 1, 7])]) ∧
    ¬((1 : Int) = 0) := by decide

/-! ### Proposer: which value the 2A carries (C6) -/

/-- C6 (amended): when a 1B `[i, 1, rnd, vr, vv]` is counted
(`rnd ≤ c-rnd`) and the updated `q` reaches QUORUM, the 2A sent carries
the incoming `v-val` exactly when the incoming `v-rnd` raises `k`
(`vr > k`); otherwise it carries `c-val`, even if `k > -1` from an
earlier 1B. -/
theorem proposer_1b_quorum_value (p : PState) (i rnd vr vv : Int) (st : PIState)
    (h : hmGet p.states i = some st) (hrnd : st.crnd ≥ rnd)
    (hq : st.q + 1 ≥ QUORUM) :
    proposer_step p [i, 1, rnd, vr, vv] =
      some ({ p with states := hmInsert p.states i
                               (if vr > st.k then
                                  { st with q := st.q + 1, k := vr, kval := vv }
                                else { st with q := st.q + 1 }) },
            [(Group.acceptors,
              [i, 2, st.crnd, if vr > st.k then vv else st.cval])]) := by
  unfold proposer_step
  simp only [List.get?, h]
  norm_num [hrnd]
  by_cases hk : vr > st.k
  · simp [hk, hq]
  · simp [hk, hq]

/-- Witness for C6 (amended): `k = 0 > -1` was set by an earlier 1B, the
current 1B carries `v-rnd = -1`, and the 2A carries `c-val = 10`, not
`k-val = 99`. -/
theorem proposer_1b_quorum_value_witness :
    proposer_step
        { states := [(0, { crnd := 0, cval := 10, q := 1, k := 0, kval := 99 })],
          instance_counter := 1 } [0, 1, 0, -1, -1] =
      some ({ states := [(0, { crnd := 0, cval := 10, q := 2, k := 0, kval := 99 })],
              instance_counter := 1 },
            [(Group.acceptors, [0, 2, 0, 10])]) := by
  have h := proposer_1b_quorum_value
    { states := [(0, { crnd := 0, cval := 10, q := 1, k := 0, kval := 99 })],
      instance_counter := 1 } 0 0 (-1) (-1)
    { crnd := 0, cval := 10, q := 1, k := 0, kval := 99 } (by decide) (by decide) (by decide)
  simpa using h

/-- Counterexample for C6 as stated: the first 1B raises `k` to 0 with
`k-val = 99`; the second 1B (with `v-rnd = -1`) completes the quorum,
and the 2A sent carries `c-val = 10` even though `k = 0 > -1`. -/
theorem proposer_2a_ignores_stale_kval_cex :
    proposer_run { states := [], instance_counter := 0 }
        [[-1, 0, 10], [0, 1, 0, 0, 99], [0, 1, 0, -1, -1]] =
      some ({ states := [(0, { crnd := 0, cval := 10, q := 2, k := 0, kval := 99 })],
              instance_counter := 1 },
            [(Group.acceptors, [0, 1, 0]), (Group.acceptors, [0, 2, 0, 10])]) ∧
    (0 : Int) > -1 ∧ ¬((10 : Int) = 99) := by decide

/-! ### Proposer: quorum counting (C7) -/

/-- C7 (amended, first half refuted): in any single proposer step, a 2A
(a sent message whose phase field is 2) is emitted only if the updated
state of its instance has `q ≥ QUORUM`. -/
theorem proposer_2a_only_at_quorum (p : PState) (m : Msg) (p' : PState)
    (outs : List (Group × Msg)) (g : Group) (out : Msg)
    (h : proposer_step p m = some (p', outs)) (hm : (g, out) ∈ outs)
    (h2 : out.get? 1 = some 2) :
    ∃ i s, out.get? 0 = some i ∧ hmGet p'.states i = some s ∧ QUORUM ≤ s.q := by
  unfold proposer_step at h
  cases h0 : m.get? 0 with
  | none => rw [h0] at h; exact absurd h (by simp)
  | some inst =>
  cases h1 : m.get? 1 with
  | none => rw [h0, h1] at h; exact absurd h (by simp)
  | some phase =>
  rw [h0, h1] at h
  simp only at h
  by_cases hph0 : phase = 0
  · rw [if_pos hph0] at h
    cases hv : m.get? 2 with
    | none => rw [hv] at h; exact absurd h (by simp)
    | some value =>
    rw [hv] at h
    simp only [Option.some.injEq, Prod.mk.injEq] at h
    rw [← h.2] at hm
    simp only [List.mem_singleton, Prod.mk.injEq] at hm
    rw [hm.2] at h2
    simp [List.get?] at h2
  · rw [if_neg hph0] at h
    by_cases hph1 : phase = 1
    · rw [if_pos hph1] at h
      cases hg : hmGet p.states inst with
      | none => rw [hg] at h; exact absurd h (by cases m.get? 2 <;> simp)
      | some st =>
      cases hm2 : m.get? 2 with
      | none => rw [hg, hm2] at h; exact absurd h (by simp)
      | some m2 =>
      rw [hg, hm2] at h
      simp only at h
      by_cases hge : st.crnd ≥ m2
      · rw [if_pos hge] at h
        cases hm3 : m.get? 3 with
        | none => rw [hm3] at h; exact absurd h (by simp)
        | some m3 =>
        rw [hm3] at h
        simp only at h
        by_cases hk : m3 > st.k
        · rw [if_pos hk] at h
          cases hm4 : m.get? 4 with
          | none => rw [hm4] at h; exact absurd h (by simp)
          | some m4 =>
          rw [hm4] at h
          simp only [Option.some.injEq, Prod.mk.injEq] at h
          rw [← h.2] at hm
          by_cases hquo : st.q + 1 ≥ QUORUM
          · rw [if_pos hquo] at hm
            simp only [List.mem_singleton, Prod.mk.injEq] at hm
            refine ⟨inst, { st with q := st.q + 1, k := m3, kval := m4 }, ?_, ?_, hquo⟩
            · rw [hm.2]; rfl
            · rw [← h.1]
              exact hmGet_insert_self p.states inst _
          · rw [if_neg hquo] at hm
            exact absurd hm (List.not_mem_nil _)
        · rw [if_neg hk] at h
          simp only [Option.some.injEq, Prod.mk.injEq] at h
          rw [← h.2] at hm
          by_cases hquo : st.q + 1 ≥ QUORUM
          · rw [if_pos hquo] at hm
            simp only [List.mem_singleton, Prod.mk.injEq] at hm
            refine ⟨inst, { st with q := st.q + 1 }, ?_, ?_, hquo⟩
            · rw [hm.2]; rfl
            · rw [← h.1]
              exact hmGet_insert_self p.states inst _
          · rw [if_neg hquo] at hm
            exact absurd hm (List.not_mem_nil _)
      · rw [if_neg hge] at h
        simp only [Option.some.injEq, Prod.mk.injEq] at h
        rw [← h.2] at hm
        exact absurd hm (List.not_mem_nil _)
    · rw [if_neg hph1] at h
      by_cases hph3 : phase = 3
      · rw [if_pos hph3] at h
        cases hg : hmGet p.states inst with
        | none => rw [hg] at h; exact absurd h (by cases m.get? 2 <;> simp)
        | some st =>
        cases hm2 : m.get? 2 with
        | none => rw [hg, hm2] at h; exact absurd h (by simp)
        | some m2 =>
        rw [hg, hm2] at h
        simp only [Option.some.injEq, Prod.mk.injEq] at h
        rw [← h.2] at hm
        simp only [List.mem_singleton, Prod.mk.injEq] at hm
        rw [hm.2] at h2
        simp [List.get?] at h2
      · rw [if_neg hph3] at h
        exact absurd h (by simp)

/-- Witness for C7 (amended): a concrete step in which the 2A
`[0, 2, 0, 10]` is sent and the updated instance state has `q = 2 ≥
QUORUM`. -/
theorem proposer_2a_only_at_quorum_witness :
    ∃ i s, ([0, 2, 0, 10] : Msg).get? 0 = some i ∧
      hmGet ({ states := [(0, { crnd := 0, cval := 10, q := 2, k := -1, kval := -1 })],
               instance_counter := 1 } : PState).states i = some s ∧ QUORUM ≤ s.q :=
  proposer_2a_only_at_quorum
    { states := [(0, { crnd := 0, cval := 10, q := 1, k := -1, kval := -1 })],
      instance_counter := 1 }
    [0, 1, 0, -1, -1]
    { states := [(0, { crnd := 0, cval := 10, q := 2, k := -1, kval := -1 })],
      instance_counter := 1 }
    [(Group.acceptors, [0, 2, 0, 10])] Group.acceptors [0, 2, 0, 10]
    (by decide) (by decide) (by decide)

/-- Counterexample for C7 as stated: delivering the same 1B four times
drives `q` to 4, which exceeds the three acceptors of the deployment
(the quorum counter is not idempotent under duplicate 1Bs). -/
theorem proposer_q_exceeds_acceptors_cex :
    proposer_run { states := [], instance_counter := 0 }
        [[-1, 0, 10], [0, 1, 0, -1, -1], [0, 1, 0, -1, -1], [0, 1, 0, -1, -1],
         [0, 1, 0, -1, -1]] =
      some ({ states := [(0, { crnd := 0, cval := 10, q := 4, k := -1, kval := -1 })],
              instance_counter := 1 },
            [(Group.acceptors, [0, 1, 0]), (Group.acceptors, [0, 2, 0, 10]),
             (Group.acceptors, [0, 2, 0, 10]), (Group.acceptors, [0, 2, 0, 10])]) ∧
    ¬((4 : Int) ≤ 3) := by decide

/-! ### Learner: the supersede branch stores the round as the value (C3) -/

/-- C3: a 2B `[0, 2, 5, 42]` arriving at an entry with stored round
3 < 5 resets the entry to `(5, 5, 1)` — the stored value is the round 5
(`inmsg[2]`), not the incoming `v-val` 42 (`inmsg[3]`). -/
theorem learner_supersede_stores_round :
    learner_step { itl := 0, states := [(0, (3, 10, 1))], output := [] } [0, 2, 5, 42] =
      some { itl := 0, states := [(0, (5, 5, 1))], output := [] } ∧
    ¬((5 : Int) = 42) := by
  refine ⟨?_, by decide⟩
  simp [learner_step, learnerEmit, List.get?, hmGet, hmInsert, QUORUM, emitLoop_exit]

/-! ### Learner: the emit loop reloads the value as the quorum count (C4) -/

/-- C4: after instance 0 reaches quorum, the emit loop reloads `q` from
`t.1` — the stored value — so instance 1, whose entry `(0, 5, 1)` has
quorum count 1 < QUORUM but value 5 ≥ QUORUM, is emitted as well. -/
theorem learner_emit_uses_value_as_quorum :
    learner_run { itl := 0, states := [], output := [] }
        [[1, 2, 0, 5], [0, 2, 0, 9]] =
      some { itl := 0, states := [(1, (0, 5, 1)), (0, (0, 9, 1))], output := [] } ∧
    learner_run { itl := 0, states := [], output := [] }
        [[1, 2, 0, 5], [0, 2, 0, 9], [0, 2, 0, 9]] =
      some { itl := 2, states := [], output := [(0, 9), (1, 5)] } ∧
    ¬(QUORUM ≤ (1 : Int)) := by
  refine ⟨?_, ?_, by decide⟩ <;>
  simp [learner_run, learner_step, learnerEmit, List.get?, hmGet, hmInsert, hmRemove,
    QUORUM, emitLoop_exit, emitLoop_go]

/-! ### Acceptor: a 2A for an unknown instance panics (C8) -/

/-- Counterexample for C8 as stated: a 2A `[5, 2, 0, 42]` for an
instance the acceptor holds no state for does not create fresh state
and answer with a 2B — the handler aborts (the source panics with
"Instance number 5 was never proposed"). -/
theorem acceptor_2a_unknown_instance_panics_cex :
    acceptor_step [] [5, 2, 0, 42] = none := by decide

/-- C8 (amended): on an unknown instance, a 2A makes the acceptor panic
(`none`), while a 1A (with round `≥ -1`) lazily creates the fresh state
`{rnd: -1, v-rnd: -1, v-val: -1}`, promises the incoming round and
answers with a 1B. -/
theorem acceptor_unknown_instance (st : List (Int × AIState)) (i c v : Int)
    (h : hmGet st i = none) (hc : -1 ≤ c) :
    acceptor_step st [i, 2, c, v] = none ∧
    acceptor_step st [i, 1, c] =
      some (hmInsert st i { rnd := c, vrnd := -1, vval := -1 },
            [(Group.proposers, [i, 1, c, -1, -1])]) := by
  constructor
  · unfold acceptor_step
    simp only [List.get?, h]
    norm_num
  · unfold acceptor_step
    have hge : initAState.rnd ≤ c := hc
    simp only [List.get?, h, Option.getD_none]
    norm_num [hge, initAState]
    exact hc

/-- Witness for C8 (amended) at the empty acceptor state. -/
theorem acceptor_unknown_instance_witness :
    acceptor_step [] [0, 2, 0, 42] = none ∧
    acceptor_step [] [0, 1, 0] =
      some (hmInsert [] 0 { rnd := 0, vrnd := -1, vval := -1 },
            [(Group.proposers, [0, 1, 0, -1, -1])]) :=
  acceptor_unknown_instance [] 0 0 42 (by decide) (by decide)

/-! ### Global safety fails: the concrete execution, step by step (C1) -/

theorem c1step1 : Step initSys c1s1 := Step.client initSys 10

theorem c1step2 : Step c1s1 c1s2 := Step.client c1s1 20

theorem c1step3 : Step c1s2 c1s3 :=
  Step.prop1 c1s2 [-1, 0, 10]
    { states := [(0, { crnd := 0, cval := 10, q := 0, k := -1, kval := -1 })],
      instance_counter := 1 }
    [(Group.acceptors, [0, 1, 0])] (by decide) (by decide)

theorem c1step4 : Step c1s3 c1s4 :=
  Step.prop2 c1s3 [-1, 0, 20]
    { states := [(0, { crnd := 0, cval := 20, q := 0, k := -1, kval := -1 })],
      instance_counter := 1 }
    [(Group.acceptors, [0, 1, 0])] (by decide) (by decide)

theorem c1step5 : Step c1s4 c1s5 :=
  Step.acc1 c1s4 [0, 1, 0] [(0, { rnd := 0, vrnd := -1, vval := -1 })]
    [(Group.proposers, [0, 1, 0, -1, -1])] (by decide) (by decide)

theorem c1step6 : Step c1s5 c1s6 :=
  Step.acc2 c1s5 [0, 1, 0] [(0, { rnd := 0, vrnd := -1, vval := -1 })]
    [(Group.proposers, [0, 1, 0, -1, -1])] (by decide) (by decide)

theorem c1step7 : Step c1s6 c1s7 :=
  Step.prop1 c1s6 [0, 1, 0, -1, -1]
    { states := [(0, { crnd := 0, cval := 10, q := 1, k := -1, kval := -1 })],
      instance_counter := 1 }
    [] (by decide) (by decide)

theorem c1step8 : Step c1s7 c1s8 :=
  Step.prop1 c1s7 [0, 1, 0, -1, -1]
    { states := [(0, { crnd := 0, cval := 10, q := 2, k := -1, kval := -1 })],
      instance_counter := 1 }
    [(Group.acceptors, [0, 2, 0, 10])] (by decide) (by decide)

theorem c1step9 : Step c1s8 c1s9 :=
  Step.prop2 c1s8 [0, 1, 0, -1, -1]
    { states := [(0, { crnd := 0, cval := 20, q := 1, k := -1, kval := -1 })],
      instance_counter := 1 }
    [] (by decide) (by decide)

theorem c1step10 : Step c1s9 c1s10 :=
  Step.prop2 c1s9 [0, 1, 0, -1, -1]
    { states := [(0, { crnd := 0, cval := 20, q := 2, k := -1, kval := -1 })],
      instance_counter := 1 }
    [(Group.acceptors, [0, 2, 0, 20])] (by decide) (by decide)

theorem c1step11 : Step c1s10 c1s11 :=
  Step.acc1 c1s10 [0, 2, 0, 10] [(0, { rnd := 0, vrnd := 0, vval := 10 })]
    [(Group.learners, [0, 2, 0, 10])] (by decide) (by decide)

theorem c1step12 : Step c1s11 c1s12 :=
  Step.acc2 c1s11 [0, 2, 0, 20] [(0, { rnd := 0, vrnd := 0, vval := 20 })]
    [(Group.learners, [0, 2, 0, 20])] (by decide) (by decide)

theorem c1step13 : Step c1s12 c1s13 :=
  Step.lrn1 c1s12 [0, 2, 0, 10] { itl := 0, states := [(0, (0, 10, 1))], output := [] }
    (by decide)
    (by
      show learner_step { itl := 0, states := [], output := [] } [0, 2, 0, 10] =
        some { itl := 0, states := [(0, (0, 10, 1))], output := [] }
      simp [learner_step, learnerEmit, List.get?, hmGet, hmInsert, QUORUM, emitLoop_exit])

theorem c1step14 : Step c1s13 c1s14 :=
  Step.lrn1 c1s13 [0, 2, 0, 10] { itl := 1, states := [], output := [(0, 10)] }
    (by decide)
    (by
      show learner_step { itl := 0, states := [(0, (0, 10, 1))], output := [] } [0, 2, 0, 10] =
        some { itl := 1, states := [], output := [(0, 10)] }
      simp [learner_step, learnerEmit, List.get?, hmGet, hmInsert, hmRemove, QUORUM,
        emitLoop_exit, emitLoop_go])

theorem c1step15 : Step c1s14 c1s15 :=
  Step.lrn2 c1s14 [0, 2, 0, 20] { itl := 0, states := [(0, (0, 20, 1))], output := [] }
    (by decide)
    (by
      show learner_step { itl := 0, states := [], output := [] } [0, 2, 0, 20] =
        some { itl := 0, states := [(0, (0, 20, 1))], output := [] }
      simp [learner_step, learnerEmit, List.get?, hmGet, hmInsert, QUORUM, emitLoop_exit])

theorem c1step16 : Step c1s15 c1s16 :=
  Step.lrn2 c1s15 [0, 2, 0, 20] { itl := 1, states := [], output := [(0, 20)] }
    (by decide)
    (by
      show learner_step { itl := 0, states := [(0, (0, 20, 1))], output := [] } [0, 2, 0, 20] =
        some { itl := 1, states := [], output := [(0, 20)] }
      simp [learner_step, learnerEmit, List.get?, hmGet, hmInsert, hmRemove, QUORUM,
        emitLoop_exit, emitLoop_go])

theorem c1_reach : Reachable initSys c1s16 :=
  Relation.ReflTransGen.head c1step1
    (Relation.ReflTransGen.head c1step2
      (Relation.ReflTransGen.head c1step3
        (Relation.ReflTransGen.head c1step4
          (Relation.ReflTransGen.head c1step5
            (Relation.ReflTransGen.head c1step6
              (Relation.ReflTransGen.head c1step7
                (Relation.ReflTransGen.head c1step8
                  (Relation.ReflTransGen.head c1step9
                    (Relation.ReflTransGen.head c1step10
                      (Relation.ReflTransGen.head c1step11
                        (Relation.ReflTransGen.head c1step12
                          (Relation.ReflTransGen.head c1step13
                            (Relation.ReflTransGen.head c1step14
                              (Relation.ReflTransGen.head c1step15
                                (Relation.ReflTransGen.head c1step16
                                  Relation.ReflTransGen.refl)))))))))))))))

/-- C1: the global safety claim fails on the code — there is a
reachable system state (messages only dropped, reordered or duplicated)
in which learner 1 has learned value 10 for instance 0 while learner 2
has learned value 20 for the same instance. -/
theorem paxos_two_learners_disagree :
    ∃ s, Reachable initSys s ∧
      (0, 10) ∈ s.lrn1.output ∧ (0, 20) ∈ s.lrn2.output ∧ ¬((10 : Int) = 20) :=
  ⟨c1s16, c1_reach, by decide, by decide, by decide⟩

end PaxosRs
